import Mathlib

/-!
Verification of the mcp-hq connection pool and dispatch layer

Shallow embedding of `src/lib/connection-pool.ts` (the `ConnectionPool`
class), the dispatch helpers of `src/lib/mcp.ts`, and the tool handlers of
`src/tools.ts`.

Modelling decisions:
* TypeScript `Map<string, PooledConnection>` becomes an association list
  `List (String × PooledConnection)` with first-match lookup.
* The opaque `Client` handle is identified by a `Nat` id; a fresh id is
  drawn from a counter each time `new Client(...)` runs, so "same handle"
  is id equality.
* A connect attempt's outcome (`await client.connect(transport)`) is an
  oracle parameter `Except Nat Unit`: `ok` for a successful connect,
  `error c` for a rejection with cause `c`.
* Side effects that matter to the claims (sleeping, closing a client,
  starting a connect) are recorded in an event trace.
* For the concurrency claim the same `getClient` source is decomposed at
  its `await` suspension points into atomic segments of a small-step
  scheduler, mirroring JavaScript's cooperative single-threaded execution.
-/

namespace McpHq

instance {ε α : Type} [DecidableEq ε] [DecidableEq α] :
    DecidableEq (Except ε α)
  | .ok x, .ok y =>
      if h : x = y then .isTrue (h ▸ rfl)
      else .isFalse (fun hh => h (Except.ok.inj hh))
  | .ok _, .error _ => .isFalse (fun hh => Except.noConfusion hh)
  | .error _, .ok _ => .isFalse (fun hh => Except.noConfusion hh)
  | .error x, .error y =>
      if h : x = y then .isTrue (h ▸ rfl)
      else .isFalse (fun hh => h (Except.error.inj hh))

/-- A stdio server entry of the configuration
(`{command: string, args: string[]}` in `src/config.ts`). -/
structure StdioServerConfig where
  command : String
  args : List String
  deriving Repr, DecidableEq

/-- One entry of `config.mcpServers` (`src/config.ts`): either a stdio
server or a streamable HTTP server. The zod union admits exactly these two
shapes, so the embedding is a closed sum. -/
inductive ServerConfig
  | stdio (cfg : StdioServerConfig)
  | streamableHttp (url : String)
  deriving Repr, DecidableEq

/-- The validated configuration (`Config` in `src/config.ts`):
a mapping from server name to server config, embedded as an association
list keyed by name. -/
structure Config where
  mcpServers : List (String × ServerConfig)
  deriving Repr, DecidableEq

/-- The `config.mcpServers[serverName]` lookup. -/
def Config.find? (cfg : Config) (name : String) : Option ServerConfig :=
  (cfg.mcpServers.lookup name)

/-- The `status` field of a `PooledConnection`
(`"connecting" | "connected" | "reconnecting" | "closed"`). -/
inductive ConnStatus
  | connecting
  | connected
  | reconnecting
  | closed
  deriving Repr, DecidableEq

/-- The `PooledConnection` record of `src/lib/connection-pool.ts`, in the
sequential (big-step) view where the connect promise has already settled.
`clientId` identifies the `Client` object held in the `client` field. -/
structure PooledConnection where
  clientId : Nat
  status : ConnStatus
  reconnectAttempts : Nat
  deriving Repr, DecidableEq

/-- The `RECONNECT_OPTIONS` of `src/lib/connection-pool.ts`. -/
structure ReconnectOptions where
  maxAttempts : Nat
  delayMs : Nat
  backoffMultiplier : Nat
  deriving Repr, DecidableEq

/-- The `RECONNECT_OPTIONS = { maxAttempts: 3, delayMs: 1000, backoffMultiplier: 2 }`. -/
def RECONNECT_OPTIONS : ReconnectOptions :=
  { maxAttempts := 3, delayMs := 1000, backoffMultiplier := 2 }

/-- The mutable fields of the `ConnectionPool` class: the `connections`
map, the `closing` flag, the (immutable) `config`, plus the fresh-id
counter for new `Client` objects. -/
structure PoolState where
  connections : List (String × PooledConnection)
  closing : Bool
  config : Config
  nextClientId : Nat
  deriving Repr, DecidableEq

/-- Errors thrown by the pool and dispatch code (`throw new Error(...)`
sites, identified by which message they carry). `connectFailed c` stands
for the rethrown rejection of `client.connect` with cause `c`. -/
inductive PoolError
  | poolClosing
  | serverNotFound (name : String)
  | maxReconnectAttemptsReached (name : String)
  | connectFailed (cause : Nat)
  deriving Repr, DecidableEq

/-- Observable side effects of pool operations:
`sleep ms` for `await new Promise(resolve => setTimeout(resolve, delay))`,
`closeClient id` for `await conn.client.close()`,
`connectAttempt id` for `await client.connect(transport)` being started. -/
inductive PoolEvent
  | sleep (ms : Nat)
  | closeClient (clientId : Nat)
  | connectAttempt (clientId : Nat)
  deriving Repr, DecidableEq

/-- The `this.connections.set(name, conn)` on an association list. -/
def setConn (m : List (String × PooledConnection)) (k : String)
    (v : PooledConnection) : List (String × PooledConnection) :=
  (k, v) :: m.filter (fun p => p.1 ≠ k)

/-- The `this.connections.delete(name)` on an association list. -/
def delConn (m : List (String × PooledConnection)) (k : String) :
    List (String × PooledConnection) :=
  m.filter (fun p => p.1 ≠ k)

namespace ConnectionPool

/-- The `ConnectionPool.createConnection` in the sequential view: builds the
transport and a fresh `Client`, inserts the record (status `connecting`)
into the map, then the connect promise settles with outcome `oc`.
On success the record becomes `connected`; on failure the catch block sets
`closed`, deletes the record from the map and rethrows the cause.
Both config shapes build a transport, so the `Invalid server config`
branch is unreachable over the validated `ServerConfig` sum. -/
def createConnection (st : PoolState) (name : String) (_cfg : ServerConfig)
    (oc : Except Nat Unit) :
    Except PoolError PooledConnection × PoolState × List PoolEvent :=
  let cid := st.nextClientId
  let conn0 : PooledConnection :=
    { clientId := cid, status := .connecting, reconnectAttempts := 0 }
  let st1 : PoolState :=
    { st with connections := setConn st.connections name conn0,
              nextClientId := cid + 1 }
  match oc with
  | .ok _ =>
      let conn1 : PooledConnection := { conn0 with status := .connected }
      (.ok conn1,
       { st1 with connections := setConn st1.connections name conn1 },
       [.connectAttempt cid])
  | .error c =>
      (.error (.connectFailed c),
       { st1 with connections := delConn st1.connections name },
       [.connectAttempt cid])

/-- The `ConnectionPool.getClient` in the sequential view: check `closing`
first, then the configuration, then reuse or create the connection record.
A record whose settled status is `connecting`/`reconnecting` has no pending
promise left to await, so those branches fall through to returning
`conn.client`, exactly as the source does when `connectPromise` is spent. -/
def getClient (st : PoolState) (name : String) (oc : Except Nat Unit) :
    Except PoolError Nat × PoolState × List PoolEvent :=
  if st.closing then
    (.error .poolClosing, st, [])
  else
    match st.config.find? name with
    | none => (.error (.serverNotFound name), st, [])
    | some cfg =>
        match st.connections.lookup name with
        | some conn =>
            if conn.status = .closed then
              match createConnection st name cfg oc with
              | (.ok conn', st', ev) => (.ok conn'.clientId, st', ev)
              | (.error e, st', ev) => (.error e, st', ev)
            else
              (.ok conn.clientId, st, [])
        | none =>
            match createConnection st name cfg oc with
            | (.ok conn', st', ev) => (.ok conn'.clientId, st', ev)
            | (.error e, st', ev) => (.error e, st', ev)

/-- The `ConnectionPool.reconnect`: no-op when there is no record or no config
entry; fails with `MaxReconnectAttemptsReached` when the bound is hit,
before any delay, close or connect; otherwise marks the record
`reconnecting`, increments the counter, sleeps the backoff delay, closes
the old client, deletes the record and creates a fresh connection. -/
def reconnect (st : PoolState) (name : String) (oc : Except Nat Unit) :
    Except PoolError Unit × PoolState × List PoolEvent :=
  match st.connections.lookup name with
  | none => (.ok (), st, [])
  | some conn =>
      match st.config.find? name with
      | none => (.ok (), st, [])
      | some cfg =>
          if RECONNECT_OPTIONS.maxAttempts ≤ conn.reconnectAttempts then
            (.error (.maxReconnectAttemptsReached name), st, [])
          else
            let attempts := conn.reconnectAttempts + 1
            let conn1 : PooledConnection :=
              { conn with status := .reconnecting,
                          reconnectAttempts := attempts }
            let st1 : PoolState :=
              { st with connections := setConn st.connections name conn1 }
            let delay :=
              RECONNECT_OPTIONS.delayMs *
                RECONNECT_OPTIONS.backoffMultiplier ^ (attempts - 1)
            let ev0 : List PoolEvent :=
              [.sleep delay, .closeClient conn.clientId]
            let st2 : PoolState :=
              { st1 with connections := delConn st1.connections name }
            match createConnection st2 name cfg oc with
            | (.ok _, st3, ev1) => (.ok (), st3, ev0 ++ ev1)
            | (.error e, st3, ev1) => (.error e, st3, ev0 ++ ev1)

/-- The `ConnectionPool.close`: if a record exists, mark it `closed`,
best-effort close its client, and delete it from the map. -/
def close (st : PoolState) (name : String) : PoolState × List PoolEvent :=
  match st.connections.lookup name with
  | none => (st, [])
  | some conn =>
      ({ st with connections := delConn st.connections name },
       [.closeClient conn.clientId])

/-- The `ConnectionPool.closeAll`: set `closing := true`, close every record,
then clear the map. -/
def closeAll (st : PoolState) : PoolState × List PoolEvent :=
  let st1 : PoolState := { st with closing := true }
  (({ st1 with connections := [] } : PoolState),
   st1.connections.map (fun p => .closeClient p.2.clientId))

end ConnectionPool

/-!
Small-step concurrency model of `getClient`

JavaScript async code is cooperative: a task runs atomically between
`await` suspension points. `getClient` on a cache miss runs
`createConnection` synchronously through transport/client construction,
starts the connect promise, and publishes the record into
`this.connections` — all before its first suspension
(`await conn.connectPromise`). A concurrently started `getClient`
therefore finds the record in `connecting` state and awaits the same
promise. The model below decomposes `getClient` into that atomic prefix
(`startGetClient`) and the resumption when the connect promise settles
(`resolveAttempt`).
-/

/-- The `PooledConnection` record in the concurrent view, including the
`connectPromise` field (identified by an attempt id when present). -/
structure CPooledConnection where
  clientId : Nat
  status : ConnStatus
  connectPromise : Option Nat
  reconnectAttempts : Nat
  deriving Repr, DecidableEq

/-- Where one `getClient` caller stands: not yet run, suspended on
`await` of a given connect promise, or returned/thrown. -/
inductive TaskState
  | ready
  | awaitingConnect (attemptId : Nat)
  | done (r : Except PoolError Nat)
  deriving Repr, DecidableEq

/-- Shared state of the cooperative scheduler: the pool fields, fresh-id
counters (`nextAttemptId` doubles as the count of connect attempts
started so far), and the caller tasks, all invoking `getClient` on the
same provider name. -/
structure ConcState where
  connections : List (String × CPooledConnection)
  closing : Bool
  config : Config
  nextClientId : Nat
  nextAttemptId : Nat
  tasks : List TaskState
  deriving Repr, DecidableEq

/-- The `connections.set` in the concurrent view. -/
def setCConn (m : List (String × CPooledConnection)) (k : String)
    (v : CPooledConnection) : List (String × CPooledConnection) :=
  (k, v) :: m.filter (fun p => p.1 ≠ k)

/-- The `connections.delete` in the concurrent view. -/
def delCConn (m : List (String × CPooledConnection)) (k : String) :
    List (String × CPooledConnection) :=
  m.filter (fun p => p.1 ≠ k)

/-- The synchronous tail of `createConnection` up to its first suspension:
build transport and client, create the record with status `connecting`,
start the connect attempt (drawing a fresh attempt id), publish the record
into the map, then suspend awaiting the attempt. -/
def startCreate (s : ConcState) (name : String) : TaskState × ConcState :=
  let cid := s.nextClientId
  let aid := s.nextAttemptId
  let conn : CPooledConnection :=
    { clientId := cid, status := .connecting, connectPromise := some aid,
      reconnectAttempts := 0 }
  (.awaitingConnect aid,
   { s with connections := setCConn s.connections name conn,
            nextClientId := cid + 1,
            nextAttemptId := aid + 1 })

/-- The atomic prefix of one `getClient` call: the `closing` check, the
config lookup, the map lookup, and either starting a creation, joining an
in-flight attempt, or returning the live client. -/
def startGetClient (s : ConcState) (name : String) : TaskState × ConcState :=
  if s.closing then
    (.done (.error .poolClosing), s)
  else
    match s.config.find? name with
    | none => (.done (.error (.serverNotFound name)), s)
    | some _ =>
        match s.connections.lookup name with
        | none => startCreate s name
        | some conn =>
            if conn.status = .closed then
              startCreate s name
            else
              match conn.status, conn.connectPromise with
              | .connecting, some aid => (.awaitingConnect aid, s)
              | .reconnecting, some aid => (.awaitingConnect aid, s)
              | _, _ => (.done (.ok conn.clientId), s)

/-- Resumption of a task awaiting attempt `aid` once that attempt settled
with result `r`: the task returns `conn.client` on success or rethrows
the cause. -/
def settleTask (aid : Nat) (r : Except PoolError Nat) :
    TaskState → TaskState
  | .awaitingConnect a => if a = aid then .done r else .awaitingConnect a
  | t => t

/-- The connect promise of provider `name` settles with outcome `oc`.
On success the record's status becomes `connected` and every waiter
resumes with the record's client; on failure the catch block marks the
record `closed`, deletes it from the map, and every waiter resumes with
the rethrown cause. -/
def resolveAttempt (s : ConcState) (name : String) (oc : Except Nat Unit) :
    ConcState :=
  match s.connections.lookup name with
  | none => s
  | some conn =>
      match conn.connectPromise with
      | none => s
      | some aid =>
          match oc with
          | .ok _ =>
              let conn1 : CPooledConnection := { conn with status := .connected }
              { s with connections := setCConn s.connections name conn1,
                       tasks := s.tasks.map (settleTask aid (.ok conn.clientId)) }
          | .error c =>
              { s with connections := delCConn s.connections name,
                       tasks := s.tasks.map
                         (settleTask aid (.error (.connectFailed c))) }

/-- One scheduler action: run the atomic prefix of caller `i`'s
`getClient`, or settle the in-flight connect attempt. -/
inductive CAction
  | start (i : Nat)
  | resolve (oc : Except Nat Unit)
  deriving Repr

/-- Apply one scheduler action (a `start` of a task that is not `ready`,
or of an out-of-range index, does nothing). -/
def applyAction (name : String) (s : ConcState) (a : CAction) : ConcState :=
  match a with
  | .start i =>
      match s.tasks[i]? with
      | some .ready =>
          let (t, s') := startGetClient s name
          { s' with tasks := s'.tasks.set i t }
      | _ => s
  | .resolve oc => resolveAttempt s name oc

/-- Run a schedule of actions. -/
def runActions (name : String) (s : ConcState) (as : List CAction) :
    ConcState :=
  as.foldl (applyAction name) s

/-- Initial state for N concurrent `getClient` callers on a pool that has
never connected any provider: empty map, `closing` false, N `ready`
tasks. -/
def concInit (cfg : Config) (n : Nat) : ConcState :=
  { connections := [], closing := false, config := cfg,
    nextClientId := 0, nextAttemptId := 0,
    tasks := List.replicate n .ready }

/-!
Dispatch layer (`src/lib/mcp.ts`, `src/tools.ts`)
-/

/-- JSON values, for payloads the dispatch layer validates structurally
but does not interpret. -/
inductive Json
  | null
  | bool (b : Bool)
  | num (n : Int)
  | str (s : String)
  | arr (xs : List Json)
  | obj (fields : List (String × Json))
  deriving Repr

/-- Dispatch-level failures: the `ProviderNotFound` throw of each
`src/tools.ts` handler, and a zod validation failure. -/
inductive DispatchError
  | serverNotFound (name : String)
  | parseFailed
  | pool (e : PoolError)
  deriving Repr, DecidableEq

/-- zod `.optional()` array field: absent is fine, present must be an
array; its elements stay `unknown`. -/
def parseOptArray : Option Json → Except DispatchError (Option (List Json))
  | none => .ok none
  | some (.arr xs) => .ok (some xs)
  | some _ => .error .parseFailed

/-- zod `.optional()` `record(string, unknown)` field: absent is fine,
present must be an object. -/
def parseOptRecord :
    Option Json → Except DispatchError (Option (List (String × Json)))
  | none => .ok none
  | some (.obj fs) => .ok (some fs)
  | some _ => .error .parseFailed

/-- zod `.optional()` boolean field. -/
def parseOptBool : Option Json → Except DispatchError (Option Bool)
  | none => .ok none
  | some (.bool b) => .ok (some b)
  | some _ => .error .parseFailed

/-- The `McpCallToolResult` (`src/lib/mcp.ts`): the validated shape of a tool
invocation result — optional content blocks, optional structured content,
optional `isError` flag. -/
structure McpCallToolResult where
  content : Option (List Json)
  structuredContent : Option (List (String × Json))
  isError : Option Bool
  deriving Repr

/-- The `mcpCallToolResultSchema.parse`: a zod object with the three optional
fields; a non-object or a wrongly-typed present field fails, unknown keys
are stripped. -/
def parseCallToolResult (j : Json) : Except DispatchError McpCallToolResult :=
  match j with
  | .obj fields => do
      let c ← parseOptArray (fields.lookup "content")
      let sc ← parseOptRecord (fields.lookup "structuredContent")
      let ie ← parseOptBool (fields.lookup "isError")
      .ok ⟨c, sc, ie⟩
  | _ => .error .parseFailed

/-- The `McpTool` (`src/lib/mcp.ts`): name plus optional description. -/
structure McpTool where
  name : String
  description : Option String
  deriving Repr, DecidableEq

/-- The `mcpToolAnnotationsSchema` (`src/lib/mcp.ts`). -/
structure McpToolAnnotations where
  title : Option String
  readOnlyHint : Option Bool
  destructiveHint : Option Bool
  idempotentHint : Option Bool
  openWorldHint : Option Bool
  deriving Repr, DecidableEq

/-- The `McpToolDetail` (`src/lib/mcp.ts`): the validated detailed tool shape.
Tool entries reported by a provider's `listTools` are modelled as
already-validated values of this type; `mcpToolDetailSchema.parse` on a
found entry is then the identity, and the not-found branch of
`getMcpServerTool` returns before any parsing anyway. -/
structure McpToolDetail where
  name : String
  description : Option String
  inputSchema : Json
  outputSchema : Option Json
  annotations : Option McpToolAnnotations
  deriving Repr

/-- The `getMcpServerTool` (`src/lib/mcp.ts`): over the provider's reported
tool list, `result.tools.find((t) => t.name === toolName)`; `null` when
no entry matches, otherwise the (validated) entry. -/
def getMcpServerTool (tools : List McpToolDetail) (toolName : String) :
    Option McpToolDetail :=
  match tools.find? (fun t => t.name == toolName) with
  | none => none
  | some t => some t

/-- Output shape of the `describe_tool` handler (`src/tools.ts`):
`{ server_name, tool }` with `tool` null when not found. -/
structure DescribeToolOutput where
  server_name : String
  tool : Option McpToolDetail
  deriving Repr

/-- The `describe_tool` handler of `src/tools.ts`: throws
`ProviderNotFound` when the server is not configured, otherwise resolves
the tool via `getMcpServerTool` over the provider's reported tool list and
returns `{ server_name, tool }` as a successful result. -/
def describeToolHandler (cfg : Config) (serverName toolName : String)
    (tools : List McpToolDetail) : Except DispatchError DescribeToolOutput :=
  match cfg.find? serverName with
  | none => .error (.serverNotFound serverName)
  | some _ => .ok ⟨serverName, getMcpServerTool tools toolName⟩

/-- The `callMcpServerTool` (`src/lib/mcp.ts`): issue
`client.callTool({ name, arguments })` and validate the provider's raw
response with `mcpCallToolResultSchema`. The provider's behaviour is the
oracle `respond`, a function from the forwarded tool name and arguments
to the raw response. -/
def callMcpServerTool (respond : String → List (String × Json) → Json)
    (toolName : String) (args : List (String × Json)) :
    Except DispatchError McpCallToolResult :=
  parseCallToolResult (respond toolName args)

/-- Output shape of the `call_tool` handler (`src/tools.ts`):
`{ server_name, tool_name, result }`. -/
structure CallToolOutput where
  server_name : String
  tool_name : String
  result : McpCallToolResult
  deriving Repr

/-- The `call_tool` handler of `src/tools.ts`: throws `ProviderNotFound`
when the server is not configured, otherwise forwards the call through
`callMcpServerTool` and wraps the validated result unchanged — there is
no branch on `result.isError`. -/
def callToolHandler (cfg : Config) (serverName toolName : String)
    (args : List (String × Json))
    (respond : String → List (String × Json) → Json) :
    Except DispatchError CallToolOutput :=
  match cfg.find? serverName with
  | none => .error (.serverNotFound serverName)
  | some _ =>
      match callMcpServerTool respond toolName args with
      | .ok r => .ok ⟨serverName, toolName, r⟩
      | .error e => .error e

/-!
Pool-backed dispatch (`*WithPool` of `src/lib/mcp.ts`)

The client a pooled operation talks to is the one `pool.getClient`
returns; what that client answers is an oracle indexed by the client id,
so a result tagged with an id witnesses which connection served it.
-/

/-- The `McpServerInfo` (`src/lib/mcp.ts`): server metadata. -/
structure McpServerInfo where
  version : String
  description : Option String
  instructions : Option String
  deriving Repr, DecidableEq

/-- The `getMcpServerInfoWithPool` (`src/lib/mcp.ts`): obtain the client from
the pool, then read its server version and instructions. -/
def getMcpServerInfoWithPool (st : PoolState) (name : String)
    (oc : Except Nat Unit) (infoOf : Nat → McpServerInfo) :
    Except PoolError McpServerInfo × PoolState × List PoolEvent :=
  match ConnectionPool.getClient st name oc with
  | (.ok cid, st', ev) => (.ok (infoOf cid), st', ev)
  | (.error e, st', ev) => (.error e, st', ev)

/-- The `getMcpServerToolsWithPool` (`src/lib/mcp.ts`): obtain the client from
the pool, then `client.listTools()`. -/
def getMcpServerToolsWithPool (st : PoolState) (name : String)
    (oc : Except Nat Unit) (toolsOf : Nat → List McpTool) :
    Except PoolError (List McpTool) × PoolState × List PoolEvent :=
  match ConnectionPool.getClient st name oc with
  | (.ok cid, st', ev) => (.ok (toolsOf cid), st', ev)
  | (.error e, st', ev) => (.error e, st', ev)

/-- The `getMcpServerToolWithPool` (`src/lib/mcp.ts`): obtain the client from
the pool, list its tools, and find the named one (null when absent). -/
def getMcpServerToolWithPool (st : PoolState) (name toolName : String)
    (oc : Except Nat Unit) (toolsOf : Nat → List McpToolDetail) :
    Except PoolError (Option McpToolDetail) × PoolState × List PoolEvent :=
  match ConnectionPool.getClient st name oc with
  | (.ok cid, st', ev) => (.ok (getMcpServerTool (toolsOf cid) toolName), st', ev)
  | (.error e, st', ev) => (.error e, st', ev)

/-- The `callMcpServerToolWithPool` (`src/lib/mcp.ts`): obtain the client from
the pool, issue `client.callTool` and validate the response. -/
def callMcpServerToolWithPool (st : PoolState) (name toolName : String)
    (args : List (String × Json)) (oc : Except Nat Unit)
    (respondOf : Nat → String → List (String × Json) → Json) :
    Except DispatchError McpCallToolResult × PoolState × List PoolEvent :=
  match ConnectionPool.getClient st name oc with
  | (.ok cid, st', ev) =>
      (parseCallToolResult (respondOf cid toolName args), st', ev)
  | (.error e, st', ev) => (.error (.pool e), st', ev)

/-!
Fan-out concurrency bound of `list_mcp_servers` (`src/tools.ts`)

The handler wraps every per-provider metadata fetch in
`pLimit(5)`: a job starts only while fewer than 5 jobs are in flight,
otherwise it queues. The model is a step relation counting queued,
in-flight and completed fetches.
-/

/-- The `pLimit(5)` constant of the `list_mcp_servers` handler. -/
def listMcpServersLimit : Nat := 5

/-- Counters of the fan-out: metadata fetches still queued, currently in
flight, and completed. -/
structure FanoutState where
  pending : Nat
  active : Nat
  completed : Nat
  deriving Repr, DecidableEq

/-- One scheduling event of the limiter: a queued fetch starts only while
strictly fewer than `listMcpServersLimit` are in flight; an in-flight
fetch may complete at any time. -/
inductive FanoutStep : FanoutState → FanoutState → Prop
  | start (s : FanoutState) (h : s.active < listMcpServersLimit)
      (hp : 0 < s.pending) :
      FanoutStep s ⟨s.pending - 1, s.active + 1, s.completed⟩
  | finish (s : FanoutState) (h : 0 < s.active) :
      FanoutStep s ⟨s.pending, s.active - 1, s.completed + 1⟩

/-- The handler enqueues one metadata fetch per configured provider. -/
def fanoutInit (cfg : Config) : FanoutState :=
  ⟨cfg.mcpServers.length, 0, 0⟩

/-- States the `list_mcp_servers` fan-out can reach from its start. -/
inductive FanoutReachable (cfg : Config) : FanoutState → Prop
  | init : FanoutReachable cfg (fanoutInit cfg)
  | step {s s' : FanoutState} (hr : FanoutReachable cfg s)
      (hs : FanoutStep s s') : FanoutReachable cfg s'

/-- A pool method invocation, for stating lifetime invariants. -/
inductive PoolOp
  | getClient (name : String) (oc : Except Nat Unit)
  | reconnect (name : String) (oc : Except Nat Unit)
  | close (name : String)
  | closeAll
  deriving Repr

/-- State effect of one pool method invocation. -/
def applyOp (st : PoolState) (op : PoolOp) : PoolState :=
  match op with
  | .getClient name oc => (ConnectionPool.getClient st name oc).2.1
  | .reconnect name oc => (ConnectionPool.reconnect st name oc).2.1
  | .close name => (ConnectionPool.close st name).1
  | .closeAll => (ConnectionPool.closeAll st).1

/-- Number of connect attempts recorded in an event trace. -/
def countConnects (evs : List PoolEvent) : Nat :=
  evs.countP (fun e => match e with
    | .connectAttempt _ => true
    | _ => false)

/-!
Pool-wired dispatch handlers

`src/server.ts` constructs a `ConnectionPool` and calls
`registerTools(server, config, pool)`, yet the `registerTools`
reachable under `src/` takes only `(server, config)` and connects per
call; the pool-wired handler bodies themselves are not among the provided
sources — only their callee helpers (`*WithPool` in `src/lib/mcp.ts`) and
their caller (`src/server.ts`) are. The handlers below are therefore
modelled from the spec, as thin wrappers over the `*WithPool` helpers.
-/

/-- Output shape of the `list_tools` operation:
`{ server_name, tools }`. -/
structure ListToolsOutput where
  server_name : String
  tools : List McpTool
  deriving Repr, DecidableEq

/-- Modelled from the spec: the pool-wired `list_tools` handler (the
3-argument `registerTools` body called by `src/server.ts` is missing from
the sources). Per "Exposes four operations, each resolving `server_name`
via the Pool" and "list capabilities(provider): returns the provider's
capability list (name + optional description) as reported by its client",
it resolves the client through `getMcpServerToolsWithPool` and shapes
`{ server_name, tools }`. -/
def listToolsHandlerPooled (st : PoolState) (serverName : String)
    (oc : Except Nat Unit) (toolsOf : Nat → List McpTool) :
    Except PoolError ListToolsOutput × PoolState × List PoolEvent :=
  match getMcpServerToolsWithPool st serverName oc toolsOf with
  | (.ok tools, st', ev) => (.ok ⟨serverName, tools⟩, st', ev)
  | (.error e, st', ev) => (.error e, st', ev)

/-- Modelled from the spec: the pool-wired `describe_tool` handler (same
missing source as `listToolsHandlerPooled`). Per "describe
capability(provider, capabilityName): returns full detail ... or an
explicit \"not found\" result", it resolves the client through
`getMcpServerToolWithPool` and shapes `{ server_name, tool }`. -/
def describeToolHandlerPooled (st : PoolState) (serverName toolName : String)
    (oc : Except Nat Unit) (toolsOf : Nat → List McpToolDetail) :
    Except PoolError DescribeToolOutput × PoolState × List PoolEvent :=
  match getMcpServerToolWithPool st serverName toolName oc toolsOf with
  | (.ok tool, st', ev) => (.ok ⟨serverName, tool⟩, st', ev)
  | (.error e, st', ev) => (.error e, st', ev)

/-- Modelled from the spec: the pool-wired `call_tool` handler (same
missing source as `listToolsHandlerPooled`). Per "invoke
capability(provider, capabilityName, arguments?): forwards the call and
returns the provider's result payload verbatim", it resolves the client
through `callMcpServerToolWithPool` and shapes
`{ server_name, tool_name, result }`. -/
def callToolHandlerPooled (st : PoolState) (serverName toolName : String)
    (args : List (String × Json)) (oc : Except Nat Unit)
    (respondOf : Nat → String → List (String × Json) → Json) :
    Except DispatchError CallToolOutput × PoolState × List PoolEvent :=
  match callMcpServerToolWithPool st serverName toolName args oc respondOf with
  | (.ok r, st', ev) => (.ok ⟨serverName, toolName, r⟩, st', ev)
  | (.error e, st', ev) => (.error e, st', ev)

/-- Modelled from the spec: the per-provider metadata fetch of the
pool-wired `list_mcp_servers` handler (same missing source as
`listToolsHandlerPooled`). Per "enumerate providers: for every configured
provider, concurrently fetches metadata ... through its pooled
connection", each provider's fetch resolves the client through
`getMcpServerInfoWithPool`. -/
def listServersFetchPooled (st : PoolState) (serverName : String)
    (oc : Except Nat Unit) (infoOf : Nat → McpServerInfo) :
    Except PoolError McpServerInfo × PoolState × List PoolEvent :=
  getMcpServerInfoWithPool st serverName oc infoOf

/-- A 12-provider configuration, for exercising the fan-out bound. -/
def exampleConfig12 : Config :=
  ⟨[("s1", .stdio ⟨"echo", []⟩), ("s2", .stdio ⟨"echo", []⟩),
    ("s3", .stdio ⟨"echo", []⟩), ("s4", .stdio ⟨"echo", []⟩),
    ("s5", .stdio ⟨"echo", []⟩), ("s6", .stdio ⟨"echo", []⟩),
    ("s7", .streamableHttp "http://localhost:9/mcp"),
    ("s8", .streamableHttp "http://localhost:9/mcp"),
    ("s9", .streamableHttp "http://localhost:9/mcp"),
    ("s10", .streamableHttp "http://localhost:9/mcp"),
    ("s11", .streamableHttp "http://localhost:9/mcp"),
    ("s12", .streamableHttp "http://localhost:9/mcp")]⟩

/-- A one-provider pool state over provider "a", with the record's status
and reconnect counter as parameters; used as a concrete input by
witnesses. -/
def poolStA (status : ConnStatus) (attempts : Nat) : PoolState :=
  { connections := [("a", ⟨0, status, attempts⟩)], closing := false,
    config := ⟨[("a", .stdio ⟨"echo", []⟩)]⟩, nextClientId := 1 }

/-- Scheduler invariant for N concurrent `getClient` callers on provider
`name`, starting from `concInit`: before any caller has run, the pool is
empty and no attempt has started; once at least one caller has run, the
single published record is in `connecting` state carrying attempt 0 and
client 0, exactly one attempt has started, and every caller is either
still `ready` or awaiting attempt 0. -/
def C1Inv (cfg : Config) (name : String) (n : Nat) (s : ConcState) : Prop :=
  s.closing = false ∧ s.config = cfg ∧ s.tasks.length = n ∧
  ((s.connections = [] ∧ s.nextAttemptId = 0 ∧ s.nextClientId = 0 ∧
      ∀ t ∈ s.tasks, t = .ready) ∨
   (s.connections =
        [(name, ⟨0, .connecting, some 0, 0⟩)] ∧
      s.nextAttemptId = 1 ∧ s.nextClientId = 1 ∧
      ∀ t ∈ s.tasks, t = .ready ∨ t = .awaitingConnect 0))

/-!
Theorems
-/

/-- C5: `reconnect` on a record whose `reconnectAttempts` has reached the
bound of 3 fails with `MaxReconnectAttemptsReached`, leaves the pool state
unchanged, and performs no side effect at all: no delay is slept, no old
client is closed, no connect is started. -/
theorem c5_reconnect_at_bound_fails_without_side_effects
    (st : PoolState) (name : String) (conn : PooledConnection)
    (cfg : ServerConfig) (oc : Except Nat Unit)
    (hconn : st.connections.lookup name = some conn)
    (hcfg : st.config.find? name = some cfg)
    (hmax : RECONNECT_OPTIONS.maxAttempts ≤ conn.reconnectAttempts) :
    ConnectionPool.reconnect st name oc =
      (.error (.maxReconnectAttemptsReached name), st, []) := by
  simp [ConnectionPool.reconnect, hconn, hcfg, hmax]

/-- Witness for C5 at a concrete pool: one record for "a" with
`reconnectAttempts = 3`. -/
theorem c5_witness :
    ConnectionPool.reconnect (poolStA .connected 3) "a" (.ok ()) =
      (.error (.maxReconnectAttemptsReached "a"), poolStA .connected 3, []) :=
  c5_reconnect_at_bound_fails_without_side_effects
    (poolStA .connected 3) "a" ⟨0, .connected, 3⟩ (.stdio ⟨"echo", []⟩)
    (.ok ()) (by decide) (by decide) (by decide)

/-- C6: the n-th reconnect attempt (entered with `reconnectAttempts =
n - 1 < 3`) sleeps exactly `delayMs * backoffMultiplier ^ (n - 1)` =
`1000 * 2 ^ (n - 1)` milliseconds before closing the old client and
starting the fresh connect; so attempts 1, 2, 3 wait 1000, 2000 and
4000 ms. -/
theorem c6_reconnect_backoff_delay
    (st : PoolState) (name : String) (conn : PooledConnection)
    (cfg : ServerConfig) (oc : Except Nat Unit) (n : Nat)
    (hconn : st.connections.lookup name = some conn)
    (hcfg : st.config.find? name = some cfg)
    (hn : conn.reconnectAttempts = n - 1)
    (h1 : 1 ≤ n) (h3 : n ≤ 3) :
    (ConnectionPool.reconnect st name oc).2.2 =
      [.sleep (1000 * 2 ^ (n - 1)), .closeClient conn.clientId,
       .connectAttempt st.nextClientId] := by
  have hlt : ¬ (3 : Nat) ≤ conn.reconnectAttempts := by omega
  have hexp : conn.reconnectAttempts + 1 - 1 = n - 1 := by omega
  cases oc <;>
    simp [ConnectionPool.reconnect, ConnectionPool.createConnection,
      hconn, hcfg, hlt, hexp, RECONNECT_OPTIONS, setConn, delConn]

/-- Witness for C6: attempts 1, 2 and 3 on concrete pools sleep 1000,
2000 and 4000 ms respectively. -/
theorem c6_witness :
    (ConnectionPool.reconnect (poolStA .closed 0) "a" (.ok ())).2.2 =
      [.sleep 1000, .closeClient 0, .connectAttempt 1] ∧
    (ConnectionPool.reconnect (poolStA .closed 1) "a" (.ok ())).2.2 =
      [.sleep 2000, .closeClient 0, .connectAttempt 1] ∧
    (ConnectionPool.reconnect (poolStA .closed 2) "a" (.ok ())).2.2 =
      [.sleep 4000, .closeClient 0, .connectAttempt 1] :=
  ⟨c6_reconnect_backoff_delay (poolStA .closed 0) "a" ⟨0, .closed, 0⟩
     (.stdio ⟨"echo", []⟩) (.ok ()) 1 (by decide) (by decide) (by decide)
     (by decide) (by decide),
   c6_reconnect_backoff_delay (poolStA .closed 1) "a" ⟨0, .closed, 1⟩
     (.stdio ⟨"echo", []⟩) (.ok ()) 2 (by decide) (by decide) (by decide)
     (by decide) (by decide),
   c6_reconnect_backoff_delay (poolStA .closed 2) "a" ⟨0, .closed, 2⟩
     (.stdio ⟨"echo", []⟩) (.ok ()) 3 (by decide) (by decide) (by decide)
     (by decide) (by decide)⟩

/-- Counterexample to C2: in a pool whose `closing` flag is set while a
connection record for "a" still exists (as during an in-flight
`closeAll`), `getClient "a"` nonetheless fails with `PoolClosing` — the
closing check precedes the record lookup, contradicting "if a connection
record for that name already exists during shutdown, acquire does not
fail with PoolClosing". -/
theorem c2_counterexample :
    ({ connections := [("a", ⟨0, .connected, 0⟩)], closing := true,
       config := ⟨[("a", .stdio ⟨"echo", []⟩)]⟩,
       nextClientId := 1 } : PoolState).connections.lookup "a" =
        some ⟨0, .connected, 0⟩ ∧
    (ConnectionPool.getClient
       { connections := [("a", ⟨0, .connected, 0⟩)], closing := true,
         config := ⟨[("a", .stdio ⟨"echo", []⟩)]⟩,
         nextClientId := 1 } "a" (.ok ())).1 = .error .poolClosing := by
  exact ⟨rfl, rfl⟩

/-- C2 as amended: `getClient` fails with `PoolClosing` exactly when a
shutdown is in progress (`closing` is set), regardless of whether a
connection record exists for the requested name: the closing check is the
first thing `getClient` does, and no other code path produces
`PoolClosing`. -/
theorem c2_amended_poolClosing_iff_closing
    (st : PoolState) (name : String) (oc : Except Nat Unit) :
    (ConnectionPool.getClient st name oc).1 = .error .poolClosing ↔
      st.closing = true := by
  unfold ConnectionPool.getClient
  cases hcl : st.closing with
  | true => simp
  | false =>
      simp only [Bool.false_eq_true, if_false, iff_false]
      cases hcfg : st.config.find? name with
      | none => simp
      | some cfg =>
          cases hconn : st.connections.lookup name with
          | none =>
              cases oc <;>
                simp [ConnectionPool.createConnection]
          | some conn =>
              by_cases hst : conn.status = .closed <;>
                cases oc <;>
                  simp [hst, ConnectionPool.createConnection]

/-- Looking up a key that a filter just removed yields nothing. -/
theorem lookup_filter_out {β : Type} (m : List (String × β)) (k : String) :
    (m.filter (fun p => p.1 ≠ k)).lookup k = none := by
  induction m with
  | nil => rfl
  | cons p t ih =>
      by_cases h : p.1 = k
      · simpa [List.filter_cons, h] using ih
      · have hbeq : (k == p.1) = false := by
          simp only [beq_eq_false_iff_ne]
          exact fun hh => h hh.symm
        simpa [List.filter_cons, h, List.lookup, hbeq] using ih

/-- The `delConn` removes the record for the deleted name. -/
theorem lookup_delConn (m : List (String × PooledConnection)) (k : String) :
    (delConn m k).lookup k = none :=
  lookup_filter_out m k

/-- The `setConn` publishes the record under the written name. -/
theorem lookup_setConn (m : List (String × PooledConnection)) (k : String)
    (v : PooledConnection) : (setConn m k v).lookup k = some v := by
  simp [setConn, List.lookup]

/-- Counterexample to C4: from a pool holding a connected record for "a"
with `reconnectAttempts = 0` (below the bound of 3), a `reconnect`
whose fresh connect attempt fails removes the record from the pool
entirely — `createConnection`'s failure branch deletes it — rather than
leaving it present in the `closed` state. -/
theorem c4_counterexample :
    (ConnectionPool.reconnect (poolStA .connected 0) "a" (.error 7)).1 =
      .error (.connectFailed 7) ∧
    ((ConnectionPool.reconnect (poolStA .connected 0) "a"
        (.error 7)).2.1).connections.lookup "a" = none := by
  exact ⟨rfl, rfl⟩

/-- C4 as amended: when a reconnect's fresh connect attempt fails while
`reconnectAttempts` is below the bound of 3, the reconnect call fails
with the connect cause and the provider's record is removed from the pool
(not kept in `closed` state); a subsequent explicit `reconnect` call is
therefore a no-op (retry happens through a fresh `getClient`), and the
failing reconnect itself performed exactly one connect attempt — the pool
never auto-retries. -/
theorem c4_amended_failed_reconnect_removes_record
    (st : PoolState) (name : String) (conn : PooledConnection)
    (cfg : ServerConfig) (c : Nat)
    (hconn : st.connections.lookup name = some conn)
    (hcfg : st.config.find? name = some cfg)
    (hlt : conn.reconnectAttempts < RECONNECT_OPTIONS.maxAttempts) :
    (ConnectionPool.reconnect st name (.error c)).1 =
      .error (.connectFailed c) ∧
    ((ConnectionPool.reconnect st name
        (.error c)).2.1).connections.lookup name = none ∧
    (∀ oc', ConnectionPool.reconnect
        ((ConnectionPool.reconnect st name (.error c)).2.1) name oc' =
      (.ok (), (ConnectionPool.reconnect st name (.error c)).2.1, [])) ∧
    countConnects (ConnectionPool.reconnect st name (.error c)).2.2 = 1 := by
  have hlt' : ¬ RECONNECT_OPTIONS.maxAttempts ≤ conn.reconnectAttempts :=
    Nat.not_le.mpr hlt
  have hn : ((ConnectionPool.reconnect st name
      (.error c)).2.1).connections.lookup name = none := by
    simp [ConnectionPool.reconnect, ConnectionPool.createConnection,
      hconn, hcfg, hlt', lookup_delConn]
  refine ⟨?_, hn, ?_, ?_⟩
  · simp [ConnectionPool.reconnect, ConnectionPool.createConnection,
      hconn, hcfg, hlt']
  · intro oc'
    generalize hg : (ConnectionPool.reconnect st name
      (.error c)).2.1 = st' at hn
    simp [ConnectionPool.reconnect, hn]
  · simp [ConnectionPool.reconnect, ConnectionPool.createConnection,
      hconn, hcfg, hlt', countConnects]

/-- Witness for C4's amended theorem at a concrete pool. -/
theorem c4_amended_witness :
    (ConnectionPool.reconnect (poolStA .connected 0) "a" (.error 7)).1 =
      .error (.connectFailed 7) ∧
    ((ConnectionPool.reconnect (poolStA .connected 0) "a"
        (.error 7)).2.1).connections.lookup "a" = none ∧
    (∀ oc', ConnectionPool.reconnect
        ((ConnectionPool.reconnect (poolStA .connected 0) "a"
          (.error 7)).2.1) "a" oc' =
      (.ok (), (ConnectionPool.reconnect (poolStA .connected 0) "a"
        (.error 7)).2.1, [])) ∧
    countConnects
      (ConnectionPool.reconnect (poolStA .connected 0) "a" (.error 7)).2.2 =
      1 :=
  c4_amended_failed_reconnect_removes_record (poolStA .connected 0) "a"
    ⟨0, .connected, 0⟩ (.stdio ⟨"echo", []⟩) 7
    (by decide) (by decide) (by decide)

/-- The `createConnection` never touches the `closing` flag. -/
theorem createConnection_closing (st : PoolState) (name : String)
    (cfg : ServerConfig) (oc : Except Nat Unit) :
    ((ConnectionPool.createConnection st name cfg oc).2.1).closing =
      st.closing := by
  cases oc <;> simp [ConnectionPool.createConnection]

/-- No pool method ever clears the `closing` flag: once set it stays set
across any invocation. -/
theorem applyOp_closing (st : PoolState) (op : PoolOp)
    (h : st.closing = true) : (applyOp st op).closing = true := by
  cases op with
  | getClient name oc => simp [applyOp, ConnectionPool.getClient, h]
  | reconnect name oc =>
      unfold applyOp ConnectionPool.reconnect
      cases hconn : st.connections.lookup name with
      | none => simpa [hconn] using h
      | some conn =>
          cases hcfg : st.config.find? name with
          | none => simpa [hconn, hcfg] using h
          | some cfg =>
              by_cases hb : RECONNECT_OPTIONS.maxAttempts ≤
                  conn.reconnectAttempts
              · simpa [hconn, hcfg, hb] using h
              · cases oc <;>
                  simp [hconn, hcfg, hb, ConnectionPool.createConnection, h]
  | close name =>
      unfold applyOp ConnectionPool.close
      cases hconn : st.connections.lookup name with
      | none => simpa [hconn] using h
      | some conn => simpa [hconn] using h
  | closeAll => simp [applyOp, ConnectionPool.closeAll]

/-- C10: once `closeAll` has run, every later `getClient` call — after any
further sequence of pool method invocations, for every provider name,
configured or not — fails with `PoolClosing`: `closeAll` sets `closing`,
no method ever clears it, and `getClient` checks it before the
configuration lookup. -/
theorem c10_closeAll_makes_getClient_fail_forever
    (st : PoolState) (ops : List PoolOp) (name : String)
    (oc : Except Nat Unit) :
    (ConnectionPool.getClient
        (ops.foldl applyOp (ConnectionPool.closeAll st).1) name oc).1 =
      .error .poolClosing := by
  have hstart : ((ConnectionPool.closeAll st).1).closing = true := by
    simp [ConnectionPool.closeAll]
  have hfold : ∀ (s : PoolState), s.closing = true →
      (ops.foldl applyOp s).closing = true := by
    induction ops with
    | nil => intro s hs; simpa using hs
    | cons op rest ih =>
        intro s hs
        exact ih (applyOp s op) (applyOp_closing s op hs)
  have hc := hfold _ hstart
  simp [ConnectionPool.getClient, hc]

/-- C7: for a configured provider and a capability name that appears in
none of the provider's reported tools, the `describe_tool` operation
returns the successful result `{ server_name, tool: null }` — it does not
fail. -/
theorem c7_describe_unknown_tool_returns_null
    (cfg : Config) (serverName toolName : String) (c : ServerConfig)
    (tools : List McpToolDetail)
    (hcfg : cfg.find? serverName = some c)
    (habs : ∀ t ∈ tools, t.name ≠ toolName) :
    describeToolHandler cfg serverName toolName tools =
      .ok ⟨serverName, none⟩ := by
  have hfind : tools.find? (fun t => t.name == toolName) = none := by
    rw [List.find?_eq_none]
    intro t ht
    simpa using habs t ht
  simp [describeToolHandler, getMcpServerTool, hcfg, hfind]

/-- Witness for C7: a provider "a" reporting one tool "x", asked to
describe "y". -/
theorem c7_witness :
    describeToolHandler ⟨[("a", .stdio ⟨"echo", []⟩)]⟩ "a" "y"
      [⟨"x", none, .obj [("type", .str "object")], none, none⟩] =
      .ok ⟨"a", none⟩ :=
  c7_describe_unknown_tool_returns_null ⟨[("a", .stdio ⟨"echo", []⟩)]⟩
    "a" "y" (.stdio ⟨"echo", []⟩)
    [⟨"x", none, .obj [("type", .str "object")], none, none⟩]
    (by decide) (by simp)

/-- C9: the `call_tool` operation forwards the named tool and arguments to
the provider and returns the provider's (structurally validated) payload
verbatim: whatever optional content array, structured-content record and
`isError` flag the raw response carried appear unchanged in
`output.result`, and nothing branches on `isError` — a payload with
`isError: true` is still a successful dispatch result. -/
theorem c9_call_tool_returns_payload_verbatim
    (cfg : Config) (serverName toolName : String) (c : ServerConfig)
    (args fs : List (String × Json))
    (respond : String → List (String × Json) → Json)
    (co : Option (List Json)) (sco : Option (List (String × Json)))
    (ieo : Option Bool)
    (hcfg : cfg.find? serverName = some c)
    (hresp : respond toolName args = .obj fs)
    (hc : parseOptArray (fs.lookup "content") = .ok co)
    (hsc : parseOptRecord (fs.lookup "structuredContent") = .ok sco)
    (hie : parseOptBool (fs.lookup "isError") = .ok ieo) :
    callToolHandler cfg serverName toolName args respond =
      .ok ⟨serverName, toolName, ⟨co, sco, ieo⟩⟩ := by
  simp only [callToolHandler, callMcpServerTool, parseCallToolResult,
    hcfg, hresp, hc, hsc, hie]
  rfl

/-- Witness for C9: a provider response carrying `isError: true` comes
back as data in a successful result. -/
theorem c9_witness :
    callToolHandler ⟨[("a", .stdio ⟨"echo", []⟩)]⟩ "a" "t" []
      (fun _ _ => .obj [("content", .arr [.str "boom"]),
                        ("isError", .bool true)]) =
      .ok ⟨"a", "t", ⟨some [.str "boom"], none, some true⟩⟩ :=
  c9_call_tool_returns_payload_verbatim ⟨[("a", .stdio ⟨"echo", []⟩)]⟩
    "a" "t" (.stdio ⟨"echo", []⟩) []
    [("content", .arr [.str "boom"]), ("isError", .bool true)]
    (fun _ _ => .obj [("content", .arr [.str "boom"]),
                      ("isError", .bool true)])
    (some [.str "boom"]) none (some true)
    (by decide) rfl rfl rfl rfl

/-- C8: in every state the `list_mcp_servers` fan-out can reach — for any
configuration, however many providers it holds — at most 5 metadata
fetches are in flight: a queued fetch only starts while strictly fewer
than `pLimit(5)`'s bound are active. -/
theorem c8_fanout_at_most_five_in_flight
    (cfg : Config) (s : FanoutState) (h : FanoutReachable cfg s) :
    s.active ≤ listMcpServersLimit := by
  induction h with
  | init => simp [fanoutInit, listMcpServersLimit]
  | step hr hs ih =>
      cases hs with
      | start hlt hp => exact hlt
      | finish ha => exact le_trans (Nat.sub_le _ _) ih

/-- Witness for C8: with 12 configured providers, the state reached after
five starts has exactly 5 fetches in flight, and the bound holds there. -/
theorem c8_witness :
    FanoutReachable exampleConfig12 ⟨7, 5, 0⟩ ∧
    (⟨7, 5, 0⟩ : FanoutState).active ≤ listMcpServersLimit := by
  have h1 : FanoutReachable exampleConfig12 ⟨11, 1, 0⟩ :=
    .step .init (.start ⟨12, 0, 0⟩ (by decide) (by decide))
  have h2 : FanoutReachable exampleConfig12 ⟨10, 2, 0⟩ :=
    .step h1 (.start ⟨11, 1, 0⟩ (by decide) (by decide))
  have h3 : FanoutReachable exampleConfig12 ⟨9, 3, 0⟩ :=
    .step h2 (.start ⟨10, 2, 0⟩ (by decide) (by decide))
  have h4 : FanoutReachable exampleConfig12 ⟨8, 4, 0⟩ :=
    .step h3 (.start ⟨9, 3, 0⟩ (by decide) (by decide))
  have h5 : FanoutReachable exampleConfig12 ⟨7, 5, 0⟩ :=
    .step h4 (.start ⟨8, 4, 0⟩ (by decide) (by decide))
  exact ⟨h5, c8_fanout_at_most_five_in_flight exampleConfig12 ⟨7, 5, 0⟩ h5⟩

/-- C3: every dispatch operation obtains its client from the Connection
Pool, and the pooled client is shared and reused across requests to the
same provider. From a pool with no record for a configured provider, the
first operation performs exactly one connect and publishes a `connected`
record; afterwards each of the four operations — enumerate-providers'
per-provider metadata fetch, list, describe and invoke — answers from
that same pooled client (the one `getClient` returns), leaves the pool
unchanged and starts no fresh connection. -/
theorem c3_dispatch_uses_and_reuses_pooled_client
    (st : PoolState) (name : String) (c : ServerConfig)
    (toolsOf : Nat → List McpTool)
    (hnone : st.connections.lookup name = none)
    (hcfg : st.config.find? name = some c)
    (hcl : st.closing = false) :
    let cid := st.nextClientId
    let first := listToolsHandlerPooled st name (.ok ()) toolsOf
    let st1 := first.2.1
    first.1 = .ok ⟨name, toolsOf cid⟩ ∧
    first.2.2 = [.connectAttempt cid] ∧
    st1.connections.lookup name = some ⟨cid, .connected, 0⟩ ∧
    (∀ oc infoOf, listServersFetchPooled st1 name oc infoOf =
        (.ok (infoOf cid), st1, [])) ∧
    (∀ oc toolsOf2, listToolsHandlerPooled st1 name oc toolsOf2 =
        (.ok ⟨name, toolsOf2 cid⟩, st1, [])) ∧
    (∀ oc tn toolsOf3, describeToolHandlerPooled st1 name tn oc toolsOf3 =
        (.ok ⟨name, getMcpServerTool (toolsOf3 cid) tn⟩, st1, [])) ∧
    (∀ oc tn args respondOf,
        (callToolHandlerPooled st1 name tn args oc respondOf).2 =
          (st1, []) ∧
        ∀ r, parseCallToolResult (respondOf cid tn args) = .ok r →
          (callToolHandlerPooled st1 name tn args oc respondOf).1 =
            .ok ⟨name, tn, r⟩) := by
  intro cid first st1
  have hfirst : first =
      (.ok ⟨name, toolsOf cid⟩,
       ⟨setConn (setConn st.connections name ⟨cid, .connecting, 0⟩)
          name ⟨cid, .connected, 0⟩,
        st.closing, st.config, cid + 1⟩,
       [.connectAttempt cid]) := by
    simp [first, listToolsHandlerPooled, getMcpServerToolsWithPool,
      ConnectionPool.getClient, ConnectionPool.createConnection,
      hnone, hcfg, hcl, cid]
  have hst1conn : st1.connections.lookup name =
      some ⟨cid, .connected, 0⟩ := by
    simp [st1, hfirst, lookup_setConn]
  have hst1cl : st1.closing = false := by
    simp [st1, hfirst, hcl]
  have hst1cfg : st1.config.find? name = some c := by
    simp [st1, hfirst, hcfg]
  have hget : ∀ oc, ConnectionPool.getClient st1 name oc =
      (.ok cid, st1, []) := by
    intro oc
    simp [ConnectionPool.getClient, hst1cl, hst1cfg, hst1conn]
  refine ⟨by simp [hfirst], by simp [hfirst], hst1conn, ?_, ?_, ?_, ?_⟩
  · intro oc infoOf
    simp [listServersFetchPooled, getMcpServerInfoWithPool, hget]
  · intro oc toolsOf2
    simp [listToolsHandlerPooled, getMcpServerToolsWithPool, hget]
  · intro oc tn toolsOf3
    simp [describeToolHandlerPooled, getMcpServerToolWithPool, hget]
  · intro oc tn args respondOf
    constructor
    · simp [callToolHandlerPooled, callMcpServerToolWithPool, hget]
      cases parseCallToolResult (respondOf cid tn args) <;> simp
    · intro r hr
      simp [callToolHandlerPooled, callMcpServerToolWithPool, hget, hr]

/-- Witness for C3: a one-provider configuration, an empty pool, and a
client reporting no tools. -/
theorem c3_witness :
    let st : PoolState :=
      { connections := [], closing := false,
        config := ⟨[("a", .stdio ⟨"echo", []⟩)]⟩, nextClientId := 0 }
    let toolsOf : Nat → List McpTool := fun _ => []
    let cid := st.nextClientId
    let first := listToolsHandlerPooled st "a" (.ok ()) toolsOf
    let st1 := first.2.1
    first.1 = .ok ⟨"a", toolsOf cid⟩ ∧
    first.2.2 = [.connectAttempt cid] ∧
    st1.connections.lookup "a" = some ⟨cid, .connected, 0⟩ ∧
    (∀ oc infoOf, listServersFetchPooled st1 "a" oc infoOf =
        (.ok (infoOf cid), st1, [])) ∧
    (∀ oc toolsOf2, listToolsHandlerPooled st1 "a" oc toolsOf2 =
        (.ok ⟨"a", toolsOf2 cid⟩, st1, [])) ∧
    (∀ oc tn toolsOf3, describeToolHandlerPooled st1 "a" tn oc toolsOf3 =
        (.ok ⟨"a", getMcpServerTool (toolsOf3 cid) tn⟩, st1, [])) ∧
    (∀ oc tn args respondOf,
        (callToolHandlerPooled st1 "a" tn args oc respondOf).2 =
          (st1, []) ∧
        ∀ r, parseCallToolResult (respondOf cid tn args) = .ok r →
          (callToolHandlerPooled st1 "a" tn args oc respondOf).1 =
            .ok ⟨"a", tn, r⟩) :=
  c3_dispatch_uses_and_reuses_pooled_client
    { connections := [], closing := false,
      config := ⟨[("a", .stdio ⟨"echo", []⟩)]⟩, nextClientId := 0 }
    "a" (.stdio ⟨"echo", []⟩) (fun _ => [])
    (by decide) (by decide) (by decide)

/-- The scheduler invariant holds initially. -/
theorem c1_inv_init (cfg : Config) (name : String) (n : Nat) :
    C1Inv cfg name n (concInit cfg n) := by
  refine ⟨rfl, rfl, by simp [concInit], Or.inl ⟨rfl, rfl, rfl, ?_⟩⟩
  intro t ht
  exact List.eq_of_mem_replicate ht

/-- The scheduler invariant is preserved by the atomic prefix of any
caller's `getClient`: the first caller to run publishes the single
connect attempt, every later one finds the `connecting` record and joins
that same attempt instead of starting a second one. -/
theorem c1_inv_start (cfg : Config) (name : String) (c : ServerConfig)
    (n : Nat) (s : ConcState) (i : Nat)
    (hcfg : cfg.find? name = some c)
    (hinv : C1Inv cfg name n s) :
    C1Inv cfg name n (applyAction name s (.start i)) := by
  obtain ⟨hcl, hcf, hlen, hdisj⟩ := hinv
  cases hget : s.tasks[i]? with
  | none =>
      have hred : applyAction name s (.start i) = s := by
        simp [applyAction, hget]
      rw [hred]
      exact ⟨hcl, hcf, hlen, hdisj⟩
  | some t =>
      cases t with
      | awaitingConnect a =>
          have hred : applyAction name s (.start i) = s := by
            simp [applyAction, hget]
          rw [hred]
          exact ⟨hcl, hcf, hlen, hdisj⟩
      | done r =>
          have hred : applyAction name s (.start i) = s := by
            simp [applyAction, hget]
          rw [hred]
          exact ⟨hcl, hcf, hlen, hdisj⟩
      | ready =>
          rcases hdisj with ⟨hconn, ha, hc0, htasks⟩ |
            ⟨hconn, ha, hc0, htasks⟩
          · have hsg : startGetClient s name =
                (.awaitingConnect 0,
                 ⟨[(name, ⟨0, .connecting, some 0, 0⟩)], false, cfg, 1, 1,
                  s.tasks⟩) := by
              simp [startGetClient, startCreate, hcl, hcf, hcfg, hconn,
                ha, hc0, setCConn]
            have hred : applyAction name s (.start i) =
                ⟨[(name, ⟨0, .connecting, some 0, 0⟩)], false, cfg, 1, 1,
                 s.tasks.set i (.awaitingConnect 0)⟩ := by
              simp [applyAction, hget, hsg]
            rw [hred]
            refine ⟨rfl, rfl, by simpa using hlen,
              Or.inr ⟨rfl, rfl, rfl, ?_⟩⟩
            intro t ht
            rcases List.mem_or_eq_of_mem_set ht with hmem | hrfl
            · exact Or.inl (htasks t hmem)
            · exact Or.inr hrfl
          · have hsg : startGetClient s name = (.awaitingConnect 0, s) := by
              simp [startGetClient, hcl, hcf, hcfg, hconn, List.lookup]
            have hred : applyAction name s (.start i) =
                { s with tasks := s.tasks.set i (.awaitingConnect 0) } := by
              simp [applyAction, hget, hsg]
            rw [hred]
            refine ⟨hcl, hcf, by simpa using hlen,
              Or.inr ⟨hconn, ha, hc0, ?_⟩⟩
            intro t ht
            rcases List.mem_or_eq_of_mem_set ht with hmem | hrfl
            · exact htasks t hmem
            · exact Or.inr hrfl

/-- The scheduler invariant survives any schedule made only of caller
starts. -/
theorem c1_inv_run (cfg : Config) (name : String) (c : ServerConfig)
    (n : Nat) (pre : List CAction)
    (hcfg : cfg.find? name = some c)
    (hpre : ∀ a ∈ pre, ∃ i, a = .start i)
    (s : ConcState) (hinv : C1Inv cfg name n s) :
    C1Inv cfg name n (runActions name s pre) := by
  induction pre generalizing s with
  | nil => exact hinv
  | cons a rest ih =>
      obtain ⟨i, rfl⟩ := hpre a (by simp)
      exact ih (fun b hb => hpre b (by simp [hb])) _
        (c1_inv_start cfg name c n s i hcfg hinv)

/-- C1: for every N ≥ 1, when N concurrent `getClient` callers target the
same never-before-connected configured provider — under any interleaving
of their atomic segments, with the connect promise settling after all of
them have started — exactly one underlying connect attempt is started,
and afterwards either every caller has resolved to the same client handle
(on success) or every caller has failed with the same underlying cause
(on failure). -/
theorem c1_concurrent_acquire_single_attempt_same_outcome
    (cfg : Config) (name : String) (c : ServerConfig) (n : Nat)
    (oc : Except Nat Unit) (pre : List CAction)
    (hcfg : cfg.find? name = some c) (hn : 1 ≤ n)
    (hpre : ∀ a ∈ pre, ∃ i, a = .start i)
    (hstarted : ∀ t ∈ (runActions name (concInit cfg n) pre).tasks,
        t ≠ .ready) :
    (runActions name (concInit cfg n)
        (pre ++ [.resolve oc])).nextAttemptId = 1 ∧
    (∀ u, oc = .ok u → ∃ cid, ∀ t ∈ (runActions name (concInit cfg n)
        (pre ++ [.resolve oc])).tasks, t = .done (.ok cid)) ∧
    (∀ cc, oc = .error cc → ∀ t ∈ (runActions name (concInit cfg n)
        (pre ++ [.resolve oc])).tasks,
      t = .done (.error (.connectFailed cc))) := by
  have hsplit : runActions name (concInit cfg n) (pre ++ [.resolve oc]) =
      resolveAttempt (runActions name (concInit cfg n) pre) name oc := by
    simp [runActions, List.foldl_append, applyAction]
  obtain ⟨hcl, hcf, hlen, hdisj⟩ :=
    c1_inv_run cfg name c n pre hcfg hpre _ (c1_inv_init cfg name n)
  have hd2 : (runActions name (concInit cfg n) pre).connections =
        [(name, ⟨0, .connecting, some 0, 0⟩)] ∧
      (runActions name (concInit cfg n) pre).nextAttemptId = 1 ∧
      (runActions name (concInit cfg n) pre).nextClientId = 1 ∧
      ∀ t ∈ (runActions name (concInit cfg n) pre).tasks,
        t = .ready ∨ t = .awaitingConnect 0 := by
    rcases hdisj with ⟨hconn, ha, hc0, htasks⟩ | h2
    · exfalso
      have hne : (runActions name (concInit cfg n) pre).tasks ≠ [] := by
        intro hnil
        rw [hnil] at hlen
        simp at hlen
        omega
      obtain ⟨t, ht⟩ := List.exists_mem_of_ne_nil _ hne
      exact hstarted t ht (htasks t ht)
    · exact h2
  obtain ⟨hconn, ha, hc0, htasks⟩ := hd2
  have hall : ∀ t ∈ (runActions name (concInit cfg n) pre).tasks,
      t = .awaitingConnect 0 := by
    intro t ht
    rcases htasks t ht with h | h
    · exact absurd h (hstarted t ht)
    · exact h
  rw [hsplit]
  cases oc with
  | ok u =>
      have hres : resolveAttempt (runActions name (concInit cfg n) pre)
          name (.ok u) =
          { runActions name (concInit cfg n) pre with
            connections := setCConn (runActions name
              (concInit cfg n) pre).connections name
              ⟨0, .connected, some 0, 0⟩,
            tasks := (runActions name (concInit cfg n) pre).tasks.map
              (settleTask 0 (.ok 0)) } := by
        simp [resolveAttempt, hconn, List.lookup]
      rw [hres]
      refine ⟨ha, ?_, ?_⟩
      · intro u' _
        refine ⟨0, ?_⟩
        intro t ht
        obtain ⟨x, hx, rfl⟩ := List.mem_map.mp ht
        rw [hall x hx]
        simp [settleTask]
      · intro cc hcc
        cases hcc
  | error cc =>
      have hres : resolveAttempt (runActions name (concInit cfg n) pre)
          name (.error cc) =
          { runActions name (concInit cfg n) pre with
            connections := delCConn (runActions name
              (concInit cfg n) pre).connections name,
            tasks := (runActions name (concInit cfg n) pre).tasks.map
              (settleTask 0 (.error (.connectFailed cc))) } := by
        simp [resolveAttempt, hconn, List.lookup]
      rw [hres]
      refine ⟨ha, ?_, ?_⟩
      · intro u hu
        cases hu
      · intro cc' hcc t ht
        obtain ⟨x, hx, rfl⟩ := List.mem_map.mp ht
        rw [hall x hx]
        cases hcc
        simp [settleTask]

/-- Witness for C1: two concurrent callers on provider "a" of a
single-provider configuration, both starting before the connect settles
successfully. -/
theorem c1_witness :
    (runActions "a" (concInit ⟨[("a", .stdio ⟨"echo", []⟩)]⟩ 2)
        ([.start 0, .start 1] ++ [.resolve (.ok ())])).nextAttemptId = 1 ∧
    (∀ u, (Except.ok () : Except Nat Unit) = .ok u →
      ∃ cid, ∀ t ∈ (runActions "a" (concInit ⟨[("a", .stdio ⟨"echo", []⟩)]⟩ 2)
        ([.start 0, .start 1] ++ [.resolve (.ok ())])).tasks,
        t = .done (.ok cid)) ∧
    (∀ cc, (Except.ok () : Except Nat Unit) = .error cc →
      ∀ t ∈ (runActions "a" (concInit ⟨[("a", .stdio ⟨"echo", []⟩)]⟩ 2)
        ([.start 0, .start 1] ++ [.resolve (.ok ())])).tasks,
        t = .done (.error (.connectFailed cc))) :=
  c1_concurrent_acquire_single_attempt_same_outcome
    ⟨[("a", .stdio ⟨"echo", []⟩)]⟩ "a" (.stdio ⟨"echo", []⟩) 2 (.ok ())
    [.start 0, .start 1] (by decide) (by decide)
    (by
      intro a ha
      simp at ha
      rcases ha with rfl | rfl
      · exact ⟨0, rfl⟩
      · exact ⟨1, rfl⟩)
    (by decide)

end McpHq
